import Mathlib

/-!
Verification development for `google/auth/transport/aiohttp_req.py`
(async transport adapter of google-auth-library-python).

The file shallowly embeds the two components of that module:

* `Request.__call__` (lines 98-141): a single-attempt transport invoker that
  wraps `aiohttp.ClientError` and `asyncio.TimeoutError` into
  `exceptions.TransportError`, together with the `_Response` adapter
  (lines 45-66).

* `AuthorizedSession.request` (lines 215-299): the authorize / send /
  detect-refreshable-failure / refresh / recurse cycle.

External effects (the credentials object, the aiohttp transport, wall-clock
durations) are supplied by a deterministic oracle `Env`, indexed by the
attempt counter: attempt `k` is the `k`-th recursion depth, which performs
exactly one transport send.  Mutation of Python header dicts is modelled by
an explicit store (`List Headers`) in which references are indices; `copy`
allocates a fresh cell, `before_request` overwrites the cell it is handed.

`requests.TimeoutGuard` is imported by the module from
`google.auth.transport.requests`, which is part of the same repository but
not among the provided sources; it is modelled from the spec (see
`guardResult`).  Quantities that no claim observes (`method`, `url`, `data`,
the per-send transport `timeout` and the `functools.partial` binding of it
into the auth request) are abstracted into the oracle.
-/

namespace AiohttpReq

/-- HTTP headers: a Python `dict` modelled as an association list that keeps
insertion order. -/
abbrev Headers := List (String × String)

/-- Python dict assignment `d[k] = v`: overwrite the value of an existing key
in place, or append the new pair at the end. -/
def setKey (k v : String) : Headers → Headers
  | [] => [(k, v)]
  | (k', v') :: rest => if k' = k then (k, v) :: rest else (k', v') :: setKey k v rest

/-- The response object produced by the underlying
`aiohttp.ClientSession.request` (only its `status` is inspected by
`AuthorizedSession.request`). -/
structure ClientResponse where
  status : Nat
deriving DecidableEq, Repr

/-- Python exceptions that can escape `AuthorizedSession.request`:
`asyncio.TimeoutError` raised by a `TimeoutGuard`, an error raised by
`credentials.refresh`, and the `AttributeError` raised by
`None.close()`. -/
inductive PyError where
  | timeoutError
  | credentialError
  | attributeError
deriving DecidableEq, Repr

/-- Modelled from the spec: `requests.TimeoutGuard` (imported from
`google.auth.transport.requests`, not among the provided sources).  Per the
spec's time-guard semantics: a budget of `none` (unlimited) disables the
check entirely and passes `none` through; otherwise, on exit, the guard
computes `remaining = budget - elapsed` and, if the scoped operation's
elapsed time used up the budget (no positive remainder), raises a timeout
failure that supersedes whatever error the wrapped operation itself
produced.  `inner` is the outcome of the wrapped operation; the result pairs
that outcome with `guard.remaining_timeout`. -/
def guardResult (budget : Option Nat) (elapsed : Nat) (inner : Except PyError α) :
    Except PyError (α × Option Nat) :=
  match budget with
  | none => inner.map (fun a => (a, none))
  | some b => if b ≤ elapsed then .error .timeoutError else inner.map (fun a => (a, some (b - elapsed)))

/-- Deterministic oracle for the external effects of one logical
`AuthorizedSession.request` call, indexed by the attempt counter
(`_credential_refresh_attempt`).  `beforeDur`, `sendDur`, `refreshDur` are
the wall-clock durations of `credentials.before_request`, the transport
send, and `credentials.refresh` at attempt `k`; `sendStatus k` is the status
of the response to the `k`-th send; `refreshOk k` tells whether the `k`-th
`credentials.refresh` succeeds; `token k` is the authorization header value
that `credentials.before_request` writes at attempt `k` (the token current
after `k` refreshes). -/
structure Env where
  beforeDur : Nat → Nat
  sendDur : Nat → Nat
  refreshDur : Nat → Nat
  sendStatus : Nat → Nat
  refreshOk : Nat → Bool
  token : Nat → String

/-- The configuration of an `AuthorizedSession` (lines 150-172):
`refresh_status_codes`, `max_refresh_attempts`, and whether the constructor
was called with `auth_request=None`, in which case it lazily created its own
`aiohttp.ClientSession` and stored it in `self._auth_request_session`
(otherwise that attribute stays `None`). -/
structure Session where
  refreshStatusCodes : List Nat
  maxRefreshAttempts : Nat
  ownsAuthSession : Bool
deriving DecidableEq, Repr

/-- Observable events of one logical call: a transport send (with the
attempt number, the headers actually sent, and the budget handed to the
`TimeoutGuard` wrapping the send), an invocation of `credentials.refresh`
(with the budget handed to its guard), and the terminal
`self._auth_request_session.close()`. -/
inductive Event where
  | send (attempt : Nat) (hdrs : Headers) (budget : Option Nat)
  | refresh (attempt : Nat) (budget : Option Nat)
  | closeAuth
deriving DecidableEq, Repr

/-- Result of a logical call: the returned response or the escaping
exception, the final header store, and the chronological event trace. -/
structure Outcome where
  result : Except PyError ClientResponse
  store : List Headers
  events : List Event
deriving Repr

/-- Contents of `headers.copy() if headers is not None else {}` (line 231):
the contents of the caller's dict at the moment of the copy, or a fresh empty
dict when the caller passed `None`. -/
def initHeaders (headersRef : Option Nat) (store : List Headers) : Headers :=
  match headersRef with
  | some r => store.getD r []
  | none => []

/-- Shallow embedding of `AuthorizedSession.request` (lines 215-299),
one frame per recursion depth.  `headersRef` is the caller's `headers`
argument: `none` for Python `None`, or a reference (index) into `store`.
Line by line:
* line 231: `request_headers = headers.copy() if headers is not None else {}`
  allocates a fresh cell;
* line 241: `remaining_time = max_allowed_time`;
* lines 243-244: first guard, around `credentials.before_request`, which
  mutates the fresh cell by writing the authorization header.  Faithful to
  the source, `remaining_time` is NOT updated from this guard (its
  `remaining_timeout` is never read; the `guard` variable is shadowed by the
  next `with` statement);
* lines 246-256: second guard, with the same `remaining_time`, around the
  transport send, after which `remaining_time = guard.remaining_timeout`;
* lines 258-295: if the status is refreshable and attempts remain, a third
  guard around (`async with self._refresh_lock`; `credentials.refresh`),
  then recurse with the ORIGINAL `headers`, the remaining budget, and the
  attempt counter incremented;
* lines 297-299: otherwise `await self._auth_request_session.close()` --
  which raises `AttributeError` when `_auth_request_session` is `None`,
  i.e. when the constructor received a caller-supplied `auth_request` --
  then return the response. -/
def requestGo (s : Session) (env : Env) (attempt : Nat) (headersRef : Option Nat)
    (maxAllowedTime : Option Nat) (store : List Headers) : Outcome :=
  let initHdrs : Headers := initHeaders headersRef store
  let reqRef := store.length
  let store1 := store ++ [initHdrs]
  let remaining := maxAllowedTime
  let store2 := store1.set reqRef (setKey "authorization" (env.token attempt) initHdrs)
  match guardResult remaining (env.beforeDur attempt) (Except.ok ()) with
  | .error e => ⟨.error e, store2, []⟩
  | .ok _ =>
    let sentHdrs := store2.getD reqRef []
    let resp : ClientResponse := ⟨env.sendStatus attempt⟩
    let ev1 : List Event := [.send attempt sentHdrs remaining]
    match guardResult remaining (env.sendDur attempt) (Except.ok resp) with
    | .error e => ⟨.error e, store2, ev1⟩
    | .ok (resp2, remaining2) =>
      if h : resp2.status ∈ s.refreshStatusCodes ∧ attempt < s.maxRefreshAttempts then
        let ev2 := ev1 ++ [.refresh attempt remaining2]
        let inner : Except PyError Unit :=
          if env.refreshOk attempt then .ok () else .error .credentialError
        match guardResult remaining2 (env.refreshDur attempt) inner with
        | .error e => ⟨.error e, store2, ev2⟩
        | .ok (_, remaining3) =>
          let deeper := requestGo s env (attempt + 1) headersRef remaining3 store2
          ⟨deeper.result, deeper.store, ev2 ++ deeper.events⟩
      else
        if s.ownsAuthSession then
          ⟨.ok resp2, store2, ev1 ++ [.closeAuth]⟩
        else
          ⟨.error .attributeError, store2, ev1⟩
termination_by s.maxRefreshAttempts - attempt
decreasing_by have := h.2; omega

/-- A logical (outermost) call to `AuthorizedSession.request`: the attempt
counter defaults to `0` (line 228 pops `_credential_refresh_attempt` with
default `0`; external callers never pass it). -/
def request (s : Session) (env : Env) (headersRef : Option Nat)
    (maxAllowedTime : Option Nat) (store : List Headers) : Outcome :=
  requestGo s env 0 headersRef maxAllowedTime store

/-- Number of `credentials.refresh` invocations in a trace. -/
def countRefresh : List Event → Nat
  | [] => 0
  | .refresh _ _ :: es => countRefresh es + 1
  | _ :: es => countRefresh es

/-- Number of transport sends in a trace. -/
def countSend : List Event → Nat
  | [] => 0
  | .send _ _ _ :: es => countSend es + 1
  | _ :: es => countSend es

/-- The time budget an event's surrounding `TimeoutGuard` was given
(`none` both for an unlimited guard and for the unguarded close). -/
def Event.budget : Event → Option Nat
  | .send _ _ b => b
  | .refresh _ b => b
  | .closeAuth => none

theorem set_append_singleton (l : List α) (a b : α) :
    (l ++ [a]).set l.length b = l ++ [b] := by
  induction l with
  | nil => rfl
  | cons x xs ih => simp [List.set, ih]

theorem getD_append_self (l : List α) (b d : α) : (l ++ [b]).getD l.length d = b := by
  induction l with
  | nil => rfl
  | cons x xs ih => simpa [List.getD] using ih

theorem getD_append_lt (l : List α) (b d : α) (i : Nat) (h : i < l.length) :
    (l ++ [b]).getD i d = l.getD i d := by
  induction l generalizing i with
  | nil => simp at h
  | cons x xs ih =>
    cases i with
    | zero => rfl
    | succ j => simpa [List.getD] using ih j (by simpa using h)

theorem countRefresh_append (a b : List Event) :
    countRefresh (a ++ b) = countRefresh a + countRefresh b := by
  induction a with
  | nil => simp [countRefresh]
  | cons e es ih => cases e <;> simp [countRefresh, ih] <;> omega

theorem countSend_append (a b : List Event) :
    countSend (a ++ b) = countSend a + countSend b := by
  induction a with
  | nil => simp [countSend]
  | cons e es ih => cases e <;> simp [countSend, ih] <;> omega

/-- One-step unfolding of `requestGo` when the time budget is unlimited
(`max_allowed_time = None`): every guard passes its wrapped outcome through
and hands `none` to the next stage. -/
theorem requestGo_none_eq (s : Session) (env : Env) (attempt : Nat) (hr : Option Nat)
    (store : List Headers) :
    requestGo s env attempt hr none store =
      (let dec := setKey "authorization" (env.token attempt) (initHeaders hr store)
       let store2 := store ++ [dec]
       let resp : ClientResponse := ⟨env.sendStatus attempt⟩
       let ev1 : List Event := [.send attempt dec none]
       if resp.status ∈ s.refreshStatusCodes ∧ attempt < s.maxRefreshAttempts then
         let ev2 := ev1 ++ [.refresh attempt none]
         if env.refreshOk attempt then
           let deeper := requestGo s env (attempt + 1) hr none store2
           ⟨deeper.result, deeper.store, ev2 ++ deeper.events⟩
         else ⟨.error .credentialError, store2, ev2⟩
       else if s.ownsAuthSession then ⟨.ok resp, store2, ev1 ++ [.closeAuth]⟩
       else ⟨.error .attributeError, store2, ev1⟩) := by
  rw [requestGo.eq_def]
  simp only [guardResult, Except.map, set_append_singleton, getD_append_self]
  by_cases hc : (ClientResponse.mk (env.sendStatus attempt)).status ∈ s.refreshStatusCodes
      ∧ attempt < s.maxRefreshAttempts
  · simp only [dif_pos hc, if_pos hc]
    cases hOk : env.refreshOk attempt <;> simp [guardResult, Except.map]
  · simp only [dif_neg hc, if_neg hc]

/-- The headers actually sent at a given attempt: the decoration that
`credentials.before_request` wrote into the fresh copy of the caller's
headers. -/
def decHeaders (env : Env) (attempt : Nat) (hr : Option Nat) (store : List Headers) : Headers :=
  setKey "authorization" (env.token attempt) (initHeaders hr store)

/-- Unlimited budget, terminal frame (status not refreshable or attempts
exhausted): close the auth session (or fail on `None`) and return. -/
theorem requestGo_none_stop (s : Session) (env : Env) (attempt : Nat) (hr : Option Nat)
    (store : List Headers)
    (hc : ¬(env.sendStatus attempt ∈ s.refreshStatusCodes ∧ attempt < s.maxRefreshAttempts)) :
    requestGo s env attempt hr none store =
      if s.ownsAuthSession then
        ⟨.ok ⟨env.sendStatus attempt⟩, store ++ [decHeaders env attempt hr store],
          [.send attempt (decHeaders env attempt hr store) none, .closeAuth]⟩
      else
        ⟨.error .attributeError, store ++ [decHeaders env attempt hr store],
          [.send attempt (decHeaders env attempt hr store) none]⟩ := by
  rw [requestGo_none_eq]
  simp [decHeaders, if_neg hc]

/-- Unlimited budget, refreshable frame whose `credentials.refresh`
raises: the error escapes, nothing further happens. -/
theorem requestGo_none_refreshFail (s : Session) (env : Env) (attempt : Nat) (hr : Option Nat)
    (store : List Headers)
    (hc : env.sendStatus attempt ∈ s.refreshStatusCodes ∧ attempt < s.maxRefreshAttempts)
    (hOk : env.refreshOk attempt = false) :
    requestGo s env attempt hr none store =
      ⟨.error .credentialError, store ++ [decHeaders env attempt hr store],
        [.send attempt (decHeaders env attempt hr store) none, .refresh attempt none]⟩ := by
  rw [requestGo_none_eq]
  simp [decHeaders, if_pos hc, hOk]

/-- Unlimited budget, refreshable frame whose refresh succeeds: recurse with
the original headers reference and unlimited budget. -/
theorem requestGo_none_refreshOk (s : Session) (env : Env) (attempt : Nat) (hr : Option Nat)
    (store : List Headers)
    (hc : env.sendStatus attempt ∈ s.refreshStatusCodes ∧ attempt < s.maxRefreshAttempts)
    (hOk : env.refreshOk attempt = true) :
    requestGo s env attempt hr none store =
      let deeper := requestGo s env (attempt + 1) hr none
        (store ++ [decHeaders env attempt hr store])
      ⟨deeper.result, deeper.store,
        .send attempt (decHeaders env attempt hr store) none ::
          .refresh attempt none :: deeper.events⟩ := by
  rw [requestGo_none_eq]
  simp [decHeaders, if_pos hc, hOk]

/-- With an unlimited budget, no frame of the recursion ever raises the
guard timeout, and every guard of every frame is handed `none`. -/
theorem requestGo_unlimited (s : Session) (env : Env) :
    ∀ (n attempt : Nat) (hr : Option Nat) (store : List Headers),
      s.maxRefreshAttempts - attempt ≤ n →
      (requestGo s env attempt hr none store).result ≠ Except.error PyError.timeoutError ∧
      ∀ e ∈ (requestGo s env attempt hr none store).events, Event.budget e = none := by
  intro n
  induction n with
  | zero =>
    intro attempt hr store hn
    rw [requestGo_none_stop s env attempt hr store (fun hcon => by omega)]
    cases hOwn : s.ownsAuthSession <;> simp [Event.budget]
  | succ n ih =>
    intro attempt hr store hn
    by_cases hc : env.sendStatus attempt ∈ s.refreshStatusCodes
        ∧ attempt < s.maxRefreshAttempts
    · cases hOk : env.refreshOk attempt
      · rw [requestGo_none_refreshFail s env attempt hr store hc hOk]
        simp [Event.budget]
      · rw [requestGo_none_refreshOk s env attempt hr store hc hOk]
        have hd := ih (attempt + 1) hr (store ++ [decHeaders env attempt hr store]) (by omega)
        refine ⟨hd.1, ?_⟩
        intro e he
        simp only [List.mem_cons] at he
        rcases he with rfl | rfl | he
        · rfl
        · rfl
        · exact hd.2 e he
    · rw [requestGo_none_stop s env attempt hr store hc]
      cases hOwn : s.ownsAuthSession <;> simp [Event.budget]

/-- With an unlimited budget, successful refreshes, and every response
refreshable, the call performs exactly `max_refresh_attempts - attempt`
further refreshes, and terminates by returning the final response (when the
session lazily created its own auth-request session) or by the
`AttributeError` of `None.close()` (when the caller supplied one). -/
theorem requestGo_exhaust (s : Session) (env : Env)
    (hAll : ∀ k, env.sendStatus k ∈ s.refreshStatusCodes)
    (hOk : ∀ k, env.refreshOk k = true) :
    ∀ (n attempt : Nat) (hr : Option Nat) (store : List Headers),
      attempt ≤ s.maxRefreshAttempts → s.maxRefreshAttempts - attempt = n →
      countRefresh (requestGo s env attempt hr none store).events = n ∧
      (requestGo s env attempt hr none store).result =
        (if s.ownsAuthSession then Except.ok ⟨env.sendStatus s.maxRefreshAttempts⟩
         else Except.error PyError.attributeError) := by
  intro n
  induction n with
  | zero =>
    intro attempt hr store hle hn
    have hEq : attempt = s.maxRefreshAttempts := by omega
    rw [requestGo_none_stop s env attempt hr store (fun hcon => by omega)]
    subst hEq
    cases hOwn : s.ownsAuthSession <;> simp [countRefresh, hOwn]
  | succ n ih =>
    intro attempt hr store hle hn
    have hc : env.sendStatus attempt ∈ s.refreshStatusCodes ∧ attempt < s.maxRefreshAttempts :=
      ⟨hAll attempt, by omega⟩
    rw [requestGo_none_refreshOk s env attempt hr store hc (hOk attempt)]
    have hd := ih (attempt + 1) hr (store ++ [decHeaders env attempt hr store])
      (by omega) (by omega)
    exact ⟨by simpa [countRefresh] using hd.1, hd.2⟩

/-- Bounded budget that survives the authorize and send steps, terminal
frame: same shape as the unlimited case, with the full budget `b` handed to
the send guard (the elapsed time of `before_request` is never deducted). -/
theorem requestGo_some_stop (s : Session) (env : Env) (attempt : Nat) (hr : Option Nat)
    (store : List Headers) (b : Nat)
    (hBefore : env.beforeDur attempt < b) (hSend : env.sendDur attempt < b)
    (hc : ¬(env.sendStatus attempt ∈ s.refreshStatusCodes ∧ attempt < s.maxRefreshAttempts)) :
    requestGo s env attempt hr (some b) store =
      if s.ownsAuthSession then
        ⟨.ok ⟨env.sendStatus attempt⟩, store ++ [decHeaders env attempt hr store],
          [.send attempt (decHeaders env attempt hr store) (some b), .closeAuth]⟩
      else
        ⟨.error .attributeError, store ++ [decHeaders env attempt hr store],
          [.send attempt (decHeaders env attempt hr store) (some b)]⟩ := by
  rw [requestGo.eq_def]
  have h1 : ¬(b ≤ env.beforeDur attempt) := by omega
  have h2 : ¬(b ≤ env.sendDur attempt) := by omega
  simp [guardResult, h1, h2, Except.map, decHeaders, set_append_singleton,
    getD_append_self, if_neg hc]

/-- Bounded budget that survives the authorize and send steps, refreshable
frame: the refresh guard receives `b` minus only the send's elapsed time; it
then either times out (superseding any refresh failure), propagates the
refresh failure, or recurses with the remainder. -/
theorem requestGo_some_refresh (s : Session) (env : Env) (attempt : Nat) (hr : Option Nat)
    (store : List Headers) (b : Nat)
    (hBefore : env.beforeDur attempt < b) (hSend : env.sendDur attempt < b)
    (hc : env.sendStatus attempt ∈ s.refreshStatusCodes ∧ attempt < s.maxRefreshAttempts) :
    requestGo s env attempt hr (some b) store =
      (let r2 := b - env.sendDur attempt
       let dec := decHeaders env attempt hr store
       let ev2 : List Event := [.send attempt dec (some b), .refresh attempt (some r2)]
       if r2 ≤ env.refreshDur attempt then ⟨.error .timeoutError, store ++ [dec], ev2⟩
       else if env.refreshOk attempt then
         let deeper := requestGo s env (attempt + 1) hr
           (some (r2 - env.refreshDur attempt)) (store ++ [dec])
         ⟨deeper.result, deeper.store, ev2 ++ deeper.events⟩
       else ⟨.error .credentialError, store ++ [dec], ev2⟩) := by
  rw [requestGo.eq_def]
  have h1 : ¬(b ≤ env.beforeDur attempt) := by omega
  have h2 : ¬(b ≤ env.sendDur attempt) := by omega
  by_cases hr2 : b - env.sendDur attempt ≤ env.refreshDur attempt
  · simp [guardResult, h1, h2, hr2, Except.map, decHeaders, set_append_singleton,
      getD_append_self, if_pos hc]
  · cases hOk : env.refreshOk attempt <;>
      simp [guardResult, h1, h2, hr2, hOk, Except.map, decHeaders, set_append_singleton,
        getD_append_self, if_pos hc]

/-- Frame and decoration property of one logical call, over every possible
branch (guard timeouts included): pre-existing store cells are never written,
the store only grows, and every transport send of the whole recursion carries
exactly the decoration by `credentials.before_request` of the contents the
caller's headers dict had on entry (the empty dict when `headers=None`). -/
theorem requestGo_frame_sends (s : Session) (env : Env) :
    ∀ (attempt : Nat) (hr mat : Option Nat) (store : List Headers),
      (∀ r, hr = some r → r < store.length) →
      store.length ≤ (requestGo s env attempt hr mat store).store.length ∧
      (∀ i, i < store.length →
        (requestGo s env attempt hr mat store).store.getD i [] = store.getD i []) ∧
      (∀ a h b, Event.send a h b ∈ (requestGo s env attempt hr mat store).events →
        h = setKey "authorization" (env.token a) (initHeaders hr store)) := by
  have main : ∀ (n attempt : Nat) (hr mat : Option Nat) (store : List Headers),
      s.maxRefreshAttempts - attempt ≤ n → (∀ r, hr = some r → r < store.length) →
      store.length ≤ (requestGo s env attempt hr mat store).store.length ∧
      (∀ i, i < store.length →
        (requestGo s env attempt hr mat store).store.getD i [] = store.getD i []) ∧
      (∀ a h b, Event.send a h b ∈ (requestGo s env attempt hr mat store).events →
        h = setKey "authorization" (env.token a) (initHeaders hr store)) := by
    intro n
    induction n with
    | zero =>
      intro attempt hr mat store hn hValid
      rw [requestGo.eq_def]
      simp only [set_append_singleton, getD_append_self]
      split
      · refine ⟨by simp, fun i hi => getD_append_lt _ _ _ _ hi, fun a h b hmem => by simp at hmem⟩
      · split
        · refine ⟨by simp, fun i hi => getD_append_lt _ _ _ _ hi, fun a h b hmem => ?_⟩
          simp only [List.mem_singleton, Event.send.injEq] at hmem
          obtain ⟨rfl, rfl, rfl⟩ := hmem
          rfl
        · next resp2 remaining2 heq2 =>
          rw [dif_neg (fun hcon => by omega)]
          split
          · refine ⟨by simp, fun i hi => getD_append_lt _ _ _ _ hi, fun a h b hmem => ?_⟩
            simp only [List.singleton_append, List.mem_cons, List.not_mem_nil, or_false,
              Event.send.injEq] at hmem
            rcases hmem with ⟨rfl, rfl, rfl⟩ | hmem
            · rfl
            · cases hmem
          · refine ⟨by simp, fun i hi => getD_append_lt _ _ _ _ hi, fun a h b hmem => ?_⟩
            simp only [List.mem_singleton, Event.send.injEq] at hmem
            obtain ⟨rfl, rfl, rfl⟩ := hmem
            rfl
    | succ n ih =>
      intro attempt hr mat store hn hValid
      rw [requestGo.eq_def]
      simp only [set_append_singleton, getD_append_self]
      split
      · refine ⟨by simp, fun i hi => getD_append_lt _ _ _ _ hi, fun a h b hmem => by simp at hmem⟩
      · split
        · refine ⟨by simp, fun i hi => getD_append_lt _ _ _ _ hi, fun a h b hmem => ?_⟩
          simp only [List.mem_singleton, Event.send.injEq] at hmem
          obtain ⟨rfl, rfl, rfl⟩ := hmem
          rfl
        · next resp2 remaining2 heq2 =>
          split
          · next hcond =>
            split
            · refine ⟨by simp, fun i hi => getD_append_lt _ _ _ _ hi, fun a h b hmem => ?_⟩
              simp only [List.singleton_append, List.mem_cons, List.not_mem_nil, or_false,
                Event.send.injEq] at hmem
              rcases hmem with ⟨rfl, rfl, rfl⟩ | hmem
              · rfl
              · cases hmem
            · next fst remaining3 heq3 =>
              have hValid2 : ∀ r, hr = some r →
                  r < (store ++
                    [setKey "authorization" (env.token attempt) (initHeaders hr store)]).length := by
                intro r hrr
                have := hValid r hrr
                simp only [List.length_append, List.length_singleton]
                omega
              have hd := ih (attempt + 1) hr remaining3
                (store ++ [setKey "authorization" (env.token attempt) (initHeaders hr store)])
                (by omega) hValid2
              obtain ⟨hdLen, hdFrame, hdSends⟩ := hd
              refine ⟨?_, fun i hi => ?_, fun a h b hmem => ?_⟩
              · simp only [List.length_append, List.length_singleton] at hdLen ⊢
                omega
              · show (requestGo s env (attempt + 1) hr remaining3
                    (store ++ [setKey "authorization" (env.token attempt)
                      (initHeaders hr store)])).store.getD i [] = store.getD i []
                rw [hdFrame i (by simp only [List.length_append, List.length_singleton]; omega),
                  getD_append_lt _ _ _ _ hi]
              · simp only [List.singleton_append, List.cons_append, List.nil_append,
                  List.mem_cons, Event.send.injEq] at hmem
                rcases hmem with ⟨rfl, rfl, rfl⟩ | hmem | hmem
                · rfl
                · cases hmem
                · have hinit : initHeaders hr
                      (store ++ [setKey "authorization" (env.token attempt)
                        (initHeaders hr store)]) = initHeaders hr store := by
                    cases hr with
                    | none => rfl
                    | some r =>
                      simp only [initHeaders]
                      exact getD_append_lt _ _ _ _ (hValid r rfl)
                  rw [hdSends a h b hmem, hinit]
          · split
            · refine ⟨by simp, fun i hi => getD_append_lt _ _ _ _ hi, fun a h b hmem => ?_⟩
              simp only [List.singleton_append, List.mem_cons, List.not_mem_nil, or_false,
                Event.send.injEq] at hmem
              rcases hmem with ⟨rfl, rfl, rfl⟩ | hmem
              · rfl
              · cases hmem
            · refine ⟨by simp, fun i hi => getD_append_lt _ _ _ _ hi, fun a h b hmem => ?_⟩
              simp only [List.mem_singleton, Event.send.injEq] at hmem
              obtain ⟨rfl, rfl, rfl⟩ := hmem
              rfl
  intro attempt hr mat store hValid
  exact main (s.maxRefreshAttempts - attempt) attempt hr mat store (Nat.le_refl _) hValid

/-! Concrete sessions and environments used in closed evaluations. -/

/-- Session that lazily created its own auth-request session
(constructed with `auth_request=None`), `refresh_status_codes={401}`,
`max_refresh_attempts=2`. -/
def sessOwn : Session := ⟨[401], 2, true⟩

/-- Session constructed with a caller-supplied `auth_request`
(so `self._auth_request_session` stays `None`). -/
def sessSupplied : Session := ⟨[401], 2, false⟩

/-- Lazily-constructed session with `max_refresh_attempts=1`. -/
def sessOwn1 : Session := ⟨[401], 1, true⟩

/-- Instant operations, every response 401, refreshes succeed. -/
def envAlways401 : Env := ⟨fun _ => 0, fun _ => 0, fun _ => 0, fun _ => 401, fun _ => true, fun _ => "tok"⟩

/-- Instant operations, every response 200. -/
def env200 : Env := ⟨fun _ => 0, fun _ => 0, fun _ => 0, fun _ => 200, fun _ => true, fun _ => "tok"⟩

/-- Instant operations, every response 403. -/
def env403 : Env := ⟨fun _ => 0, fun _ => 0, fun _ => 0, fun _ => 403, fun _ => true, fun _ => "tok"⟩

/-- `before_request` takes 4 time units and the send takes 3; response 200. -/
def envC1 : Env := ⟨fun _ => 4, fun _ => 3, fun _ => 0, fun _ => 200, fun _ => true, fun _ => "tok"⟩

/-- `before_request` alone takes 5 time units; response 403. -/
def envSlowAuth : Env := ⟨fun _ => 5, fun _ => 0, fun _ => 0, fun _ => 403, fun _ => true, fun _ => "tok"⟩

/-- Every response 401; the retried (second) send takes 5 time units. -/
def envSlowRetry : Env :=
  ⟨fun _ => 0, fun k => if k = 0 then 0 else 5, fun _ => 0, fun _ => 401, fun _ => true, fun _ => "tok"⟩

/-- Instant operations, every response 401, `credentials.refresh` raises. -/
def envRefreshFail : Env := ⟨fun _ => 0, fun _ => 0, fun _ => 0, fun _ => 401, fun _ => false, fun _ => "tok"⟩

/-- Response 401, the send takes 1 unit, `credentials.refresh` takes 100
units AND raises. -/
def envRefreshFailSlow : Env :=
  ⟨fun _ => 0, fun _ => 1, fun _ => 100, fun _ => 401, fun _ => false, fun _ => "tok"⟩

/-- C1: with `max_allowed_time = 10` and a `before_request` step that takes 4
time units, the time-guard wrapping the transport send receives the FULL
budget `10`, not `10 - 4 = 6`: the code never reads the first guard's
`remaining_timeout` (line 241 sets `remaining_time = max_allowed_time` and no
update occurs between the first and second guard), so the deadline is not
cumulative across the before-request and send sub-operations, contradicting
the claim. -/
theorem C1_send_guard_full_budget :
    (request sessOwn envC1 none (some 10) []).events =
      [Event.send 0 [("authorization", "tok")] (some 10), Event.closeAuth] ∧
    (some 10 : Option Nat) ≠ some (10 - envC1.beforeDur 0) := by
  constructor
  · simp [request, requestGo, guardResult, Except.map, sessOwn, envC1, setKey, initHeaders]
  · simp [envC1]

/-- C2: on the terminal return, the dedicated auth-request session is closed
when the session created it lazily (`auth_request=None` at construction) and
the call returns the response; but when the caller supplied an
`auth_request`, `self._auth_request_session` is `None` and the unconditional
`await self._auth_request_session.close()` at line 297 raises
`AttributeError` instead of returning successfully -- contradicting the
claim that the return still succeeds. -/
theorem C2_close_only_owned_session :
    ((request sessOwn env200 none none []).result = Except.ok ⟨200⟩ ∧
     (request sessOwn env200 none none []).events =
       [Event.send 0 [("authorization", "tok")] none, Event.closeAuth]) ∧
    (request sessSupplied env200 none none []).result = Except.error PyError.attributeError := by
  refine ⟨⟨?_, ?_⟩, ?_⟩ <;>
    simp [request, requestGo, guardResult, Except.map, sessOwn, sessSupplied, env200,
      setKey, initHeaders]

/-- C3 (amended): with every response refreshable and every refresh
succeeding, a single logical call performs exactly `max_refresh_attempts`
refresh operations (hence never more), provided no time-guard deadline
expires (formalised with `max_allowed_time` unset); after exhaustion the
call returns the final still-refreshable response normally when the session
created its auth-request transport lazily, while with a caller-supplied
`auth_request` the terminal return raises `AttributeError` instead. -/
theorem C3_exhaustion_amended (s : Session) (env : Env) (hr : Option Nat)
    (store : List Headers)
    (hAll : ∀ k, env.sendStatus k ∈ s.refreshStatusCodes)
    (hOk : ∀ k, env.refreshOk k = true) :
    countRefresh (request s env hr none store).events = s.maxRefreshAttempts ∧
    (request s env hr none store).result =
      (if s.ownsAuthSession then Except.ok ⟨env.sendStatus s.maxRefreshAttempts⟩
       else Except.error PyError.attributeError) :=
  requestGo_exhaust s env hAll hOk s.maxRefreshAttempts 0 hr store (by omega) (by omega)

/-- C3 counterexample: the claim as stated fails twice on the code.
With a caller-supplied `auth_request` (`sessSupplied`, N = 2) and every
response 401, exactly 2 refreshes occur but the call then raises
`AttributeError` instead of returning the final 401 response.  And with a
time budget (`max_allowed_time = 1`) on a lazily-constructed session with
N = 1 whose retried send is slow, the single allowed refresh occurs and the
call then raises the guard timeout instead of returning the final
response. -/
theorem C3_as_stated_counterexample :
    (countRefresh (request sessSupplied envAlways401 none none []).events = 2 ∧
     (request sessSupplied envAlways401 none none []).result =
       Except.error PyError.attributeError) ∧
    (countRefresh (request sessOwn1 envSlowRetry none (some 1) []).events = 1 ∧
     (request sessOwn1 envSlowRetry none (some 1) []).result =
       Except.error PyError.timeoutError) := by
  refine ⟨⟨?_, ?_⟩, ?_, ?_⟩ <;>
    simp [request, requestGo, guardResult, Except.map, sessSupplied, sessOwn1,
      envAlways401, envSlowRetry, setKey, initHeaders, countRefresh]

/-- C3 witness: the amended theorem at a lazily-constructed session with
N = 2 and every response 401: exactly 2 refreshes, final 401 returned. -/
theorem C3_exhaustion_amended_witness :
    countRefresh (request sessOwn envAlways401 none none []).events = 2 ∧
    (request sessOwn envAlways401 none none []).result = Except.ok ⟨401⟩ := by
  have h := C3_exhaustion_amended sessOwn envAlways401 none []
    (fun k => by simp [envAlways401, sessOwn]) (fun k => rfl)
  simpa [sessOwn] using h

/-- C4: a caller-supplied headers dict is never mutated by a logical call
(its store cell is unchanged at every recursion depth), and the headers
actually sent at every attempt are the enrichment, by
`credentials.before_request`, of the caller's ORIGINAL headers -- each
attempt re-decorates a fresh copy of the original (line 231 copies, line 290
passes the original `headers` to the recursion), never the headers already
enriched by a failed attempt. -/
theorem C4_original_headers_each_attempt (s : Session) (env : Env) (mat : Option Nat)
    (store : List Headers) (r : Nat) (hrLt : r < store.length) :
    (∀ i, i < store.length →
      (request s env (some r) mat store).store.getD i [] = store.getD i []) ∧
    (∀ a h b, Event.send a h b ∈ (request s env (some r) mat store).events →
      h = setKey "authorization" (env.token a) (store.getD r [])) := by
  have hd := requestGo_frame_sends s env 0 (some r) mat store
    (fun r' hr' => by injection hr' with h; omega)
  exact ⟨hd.2.1, fun a h b hm => by simpa [initHeaders] using hd.2.2 a h b hm⟩

/-- C4 witness: concrete run with caller headers `{"x": "1"}` (store cell 0),
every response 401: the cell is unchanged after the call, and the headers of
the second send (the retry) are again the decoration of the original. -/
theorem C4_original_headers_each_attempt_witness :
    (request sessOwn envAlways401 (some 0) none [[("x", "1")]]).store.getD 0 [] =
      ([[("x", "1")]] : List Headers).getD 0 [] ∧
    ([("x", "1"), ("authorization", "tok")] : Headers) =
      setKey "authorization" (envAlways401.token 1) (([[("x", "1")]] : List Headers).getD 0 []) := by
  have h := C4_original_headers_each_attempt sessOwn envAlways401 none [[("x", "1")]] 0 (by simp)
  refine ⟨h.1 0 (by simp), h.2 1 [("x", "1"), ("authorization", "tok")] none ?_⟩
  simp [request, requestGo, guardResult, Except.map, sessOwn, envAlways401, setKey, initHeaders]

/-- C5 (amended): when the first response's status is not in
`refresh_status_codes` and the time budget survives the authorize and send
steps, exactly one transport send occurs and zero refreshes occur; the
transport's response is returned unchanged provided the session owns its
lazily-created auth-request session (with a caller-supplied `auth_request`
the terminal return raises `AttributeError` instead). -/
theorem C5_single_send_amended (s : Session) (env : Env) (hr : Option Nat)
    (store : List Headers) (mat : Option Nat)
    (hStatus : env.sendStatus 0 ∉ s.refreshStatusCodes)
    (hBudget : mat = none ∨ ∃ b, mat = some b ∧ env.beforeDur 0 < b ∧ env.sendDur 0 < b) :
    countSend (request s env hr mat store).events = 1 ∧
    countRefresh (request s env hr mat store).events = 0 ∧
    (s.ownsAuthSession = true →
      (request s env hr mat store).result = Except.ok ⟨env.sendStatus 0⟩) := by
  have hc : ¬(env.sendStatus 0 ∈ s.refreshStatusCodes ∧ 0 < s.maxRefreshAttempts) :=
    fun hcon => hStatus hcon.1
  rcases hBudget with rfl | ⟨b, rfl, h1, h2⟩
  · simp only [request]
    rw [requestGo_none_stop s env 0 hr store hc]
    cases hOwn : s.ownsAuthSession <;> simp [hOwn, countSend, countRefresh]
  · simp only [request]
    rw [requestGo_some_stop s env 0 hr store b h1 h2 hc]
    cases hOwn : s.ownsAuthSession <;> simp [hOwn, countSend, countRefresh]

/-- C5 counterexample: the claim as stated fails twice on the code.  With a
caller-supplied `auth_request` and a 403 response (not refreshable), the
call raises `AttributeError` instead of returning the 403 response
unchanged.  And with `max_allowed_time = 1` and a `before_request` step that
takes 5 units, ZERO transport sends occur (the first guard times out before
the send). -/
theorem C5_as_stated_counterexample :
    ((403 : Nat) ∉ sessSupplied.refreshStatusCodes ∧
     (request sessSupplied env403 none none []).result = Except.error PyError.attributeError) ∧
    (countSend (request sessOwn envSlowAuth none (some 1) []).events = 0 ∧
     (request sessOwn envSlowAuth none (some 1) []).result =
       Except.error PyError.timeoutError) := by
  refine ⟨⟨by simp [sessSupplied], ?_⟩, ?_, ?_⟩ <;>
    simp [request, requestGo, guardResult, Except.map, sessSupplied, sessOwn, env403,
      envSlowAuth, setKey, initHeaders, countSend]

/-- C5 witness: the amended theorem at a lazily-constructed session with a
403 response and no deadline: one send, zero refreshes, 403 returned. -/
theorem C5_single_send_amended_witness :
    countSend (request sessOwn env403 none none []).events = 1 ∧
    countRefresh (request sessOwn env403 none none []).events = 0 ∧
    (request sessOwn env403 none none []).result = Except.ok ⟨403⟩ := by
  have h := C5_single_send_amended sessOwn env403 none [] none
    (by simp [env403, sessOwn]) (Or.inl rfl)
  exact ⟨h.1, h.2.1, h.2.2 rfl⟩

/-- C7 (amended): if the first response is refreshable, attempts remain, the
budget survives the authorize and send steps, and `credentials.refresh`
raises, then the whole logical call fails with no retried send and no
recursion (the trace is exactly one send followed by the one failed refresh
invocation): the refresh error propagates unchanged unless the time budget
expired during the refresh step, in which case (per the spec's time-guard
semantics) the guard's timeout failure supersedes it.  With
`max_allowed_time` unset the refresh error always propagates unchanged. -/
theorem C7_refresh_failure_amended (s : Session) (env : Env) (hr : Option Nat)
    (store : List Headers) (mat : Option Nat)
    (hStatus : env.sendStatus 0 ∈ s.refreshStatusCodes)
    (hMax : 0 < s.maxRefreshAttempts)
    (hRef : env.refreshOk 0 = false)
    (hBudget : mat = none ∨ ∃ b, mat = some b ∧ env.beforeDur 0 < b ∧ env.sendDur 0 < b) :
    (∃ h b2, (request s env hr mat store).events = [Event.send 0 h mat, Event.refresh 0 b2]) ∧
    ((request s env hr mat store).result = Except.error PyError.credentialError ∨
     (request s env hr mat store).result = Except.error PyError.timeoutError) ∧
    (mat = none → (request s env hr mat store).result = Except.error PyError.credentialError) := by
  have hc : env.sendStatus 0 ∈ s.refreshStatusCodes ∧ 0 < s.maxRefreshAttempts := ⟨hStatus, hMax⟩
  rcases hBudget with rfl | ⟨b, rfl, h1, h2⟩
  · simp only [request]
    rw [requestGo_none_refreshFail s env 0 hr store hc hRef]
    exact ⟨⟨_, _, rfl⟩, Or.inl rfl, fun _ => rfl⟩
  · simp only [request]
    rw [requestGo_some_refresh s env 0 hr store b h1 h2 hc]
    by_cases hr2 : b - env.sendDur 0 ≤ env.refreshDur 0
    · simp only [if_pos hr2]
      exact ⟨⟨_, _, rfl⟩, by simp, fun hmm => by cases hmm⟩
    · simp only [if_neg hr2, hRef, Bool.false_eq_true, if_false]
      exact ⟨⟨_, _, rfl⟩, by simp, fun hmm => by cases hmm⟩

/-- C7 counterexample: `credentials.refresh` raises at a point where the
refresh guard's budget is also exhausted (`max_allowed_time = 10`, send took
1 unit, refresh took 100): per the spec's time-guard semantics the caller
sees the guard's `TimeoutError`, not the refresh error propagated
unchanged. -/
theorem C7_as_stated_counterexample :
    envRefreshFailSlow.refreshOk 0 = false ∧
    (request sessOwn envRefreshFailSlow none (some 10) []).result =
      Except.error PyError.timeoutError := by
  refine ⟨rfl, ?_⟩
  simp [request, requestGo, guardResult, Except.map, sessOwn, envRefreshFailSlow,
    setKey, initHeaders]

/-- C7 witness: the amended theorem with no deadline: the refresh error
propagates unchanged after exactly one send and one refresh invocation. -/
theorem C7_refresh_failure_amended_witness :
    (∃ h b2, (request sessOwn envRefreshFail none none []).events =
      [Event.send 0 h none, Event.refresh 0 b2]) ∧
    (request sessOwn envRefreshFail none none []).result =
      Except.error PyError.credentialError := by
  have h := C7_refresh_failure_amended sessOwn envRefreshFail none [] none
    (by simp [envRefreshFail, sessOwn]) (by simp [sessOwn]) rfl (Or.inl rfl)
  exact ⟨h.1, h.2.2 rfl⟩

/-- C8: with `max_allowed_time` unset (`None`), no time-guard timeout
failure is raised anywhere in the logical call, at any recursion depth, and
the unlimited budget `none` is the budget handed to every guard of every
frame (hence propagated unchanged into each recursive call). -/
theorem C8_unlimited_no_timeout (s : Session) (env : Env) (hr : Option Nat)
    (store : List Headers) :
    (request s env hr none store).result ≠ Except.error PyError.timeoutError ∧
    ∀ e ∈ (request s env hr none store).events, Event.budget e = none :=
  requestGo_unlimited s env s.maxRefreshAttempts 0 hr store (by omega)

/-- C8 witness: concrete run (every response 401, N = 2, slow refresh
durations are irrelevant since the budget is unlimited): no timeout, and the
first send event carries budget `none`. -/
theorem C8_unlimited_no_timeout_witness :
    (request sessOwn envAlways401 none none []).result ≠ Except.error PyError.timeoutError ∧
    Event.budget (Event.send 0 [("authorization", "tok")] none) = none := by
  refine ⟨(C8_unlimited_no_timeout sessOwn envAlways401 none []).1, ?_⟩
  refine (C8_unlimited_no_timeout sessOwn envAlways401 none []).2
    (Event.send 0 [("authorization", "tok")] none) ?_
  simp [request, requestGo, guardResult, Except.map, sessOwn, envAlways401, setKey, initHeaders]

/-- C10: with `headers=None`, the call proceeds with a fresh empty mapping
per attempt: the headers of every send of the recursion are exactly the
decoration by `credentials.before_request` of the empty dict (each recursive
retry passes `headers=None` again, line 290, and re-creates a fresh empty
mapping, line 231). -/
theorem C10_none_headers_fresh_empty (s : Session) (env : Env) (mat : Option Nat)
    (store : List Headers) :
    ∀ a h b, Event.send a h b ∈ (request s env none mat store).events →
      h = setKey "authorization" (env.token a) [] := by
  have hd := requestGo_frame_sends s env 0 none mat store (fun r hr' => by cases hr')
  exact fun a h b hm => by simpa [initHeaders] using hd.2.2 a h b hm

/-- C10 witness: concrete run with `headers=None` and every response 401:
the retried (second) send carries exactly the fresh decoration of the empty
dict. -/
theorem C10_none_headers_fresh_empty_witness :
    ([("authorization", "tok")] : Headers) =
      setKey "authorization" (envAlways401.token 1) [] := by
  refine C10_none_headers_fresh_empty sessOwn envAlways401 none [] 1
    [("authorization", "tok")] none ?_
  simp [request, requestGo, guardResult, Except.map, sessOwn, envAlways401, setKey, initHeaders]

/-! Embedding of the Request invoker (`Request.__call__`, lines 98-141) and
the `_Response` adapter (lines 45-66). -/

/-- The raw response object returned by the underlying
`aiohttp.ClientSession.request` inside `Request.__call__`: status, headers,
and `content` (the byte payload that the adapter exposes as `data`). -/
structure RawResponse where
  status : Nat
  headers : List (String × String)
  content : List Nat
deriving DecidableEq, Repr

/-- The two exception classes caught by `Request.__call__` (lines 135-141):
`aiohttp.ClientError` (any connection/protocol-level failure of the
transport) and `asyncio.TimeoutError` (the transport exceeded the elapsed
time budget). -/
inductive ClientFailure where
  | clientError
  | timeoutError
deriving DecidableEq, Repr

/-- `google.auth.exceptions.TransportError` as raised by
`six.raise_from(new_exc, caught_exc)` (lines 136-141): a single normalized
error kind wrapping the caught underlying cause. -/
inductive TransportError where
  | wrapped (cause : ClientFailure)
deriving DecidableEq, Repr

/-- `_Response` (lines 45-66): the adapter holding the raw response. -/
structure RespAdapter where
  response : RawResponse
deriving DecidableEq, Repr

/-- The `_Response.status` property (lines 56-58). -/
def RespAdapter.status (r : RespAdapter) : Nat := r.response.status

/-- The `_Response.headers` property (lines 60-62). -/
def RespAdapter.headers (r : RespAdapter) : List (String × String) := r.response.headers

/-- The `_Response.data` property (lines 64-66): `self.response.content`. -/
def RespAdapter.data (r : RespAdapter) : List Nat := r.response.content

/-- Shallow embedding of `Request.__call__` (lines 98-141).  `send` is the
outcome of the single underlying `await self.session.request(...)`
invocation, the oracle for the opaque transport.  The body performs that
invocation exactly once -- the returned `Nat` counts the transport
invocations the body makes, and the body contains no loop or retry -- and
either wraps the raw response in `_Response` (line 133) or converts a caught
`aiohttp.ClientError` / `asyncio.TimeoutError` into a `TransportError`
wrapping it (lines 135-141).  The debug log of line 129 is observability
only and is not modelled. -/
def Request.call (send : Except ClientFailure RawResponse) :
    Except TransportError RespAdapter × Nat :=
  match send with
  | .ok r => (.ok ⟨r⟩, 1)
  | .error e => (.error (.wrapped e), 1)

/-- C6: for every invocation of the Request invoker, exactly one transport
attempt is made (no retry lives in the invoker); if the underlying transport
raises a connection/protocol-level error or a timeout, the invoker fails
with the single normalized `TransportError` wrapping that cause; on success
it returns a `_Response` exposing the underlying status, headers and byte
payload. -/
theorem C6_invoker_wraps_single_attempt (send : Except ClientFailure RawResponse) :
    (Request.call send).2 = 1 ∧
    (∀ e, send = .error e →
      (Request.call send).1 = .error (.wrapped e)) ∧
    (∀ r, send = .ok r → ∃ resp,
      (Request.call send).1 = .ok resp ∧
      resp.status = r.status ∧ resp.headers = r.headers ∧ resp.data = r.content) := by
  cases send with
  | ok r =>
    refine ⟨rfl, fun e he => ?_, fun r' hr' => ?_⟩
    · cases he
    · cases hr'
      exact ⟨⟨r⟩, rfl, rfl, rfl, rfl⟩
  | error e =>
    refine ⟨rfl, fun e' he' => ?_, fun r' hr' => ?_⟩
    · cases he'
      rfl
    · cases hr'

/-- C6 witness: the theorem exercised at a concrete successful response and
at a concrete timeout failure. -/
theorem C6_invoker_wraps_single_attempt_witness :
    ((Request.call (Except.ok ⟨200, [("a", "b")], [1, 2]⟩)).2 = 1 ∧
     ∃ resp, (Request.call (Except.ok ⟨200, [("a", "b")], [1, 2]⟩)).1 = Except.ok resp ∧
       resp.status = 200 ∧ resp.headers = [("a", "b")] ∧ resp.data = [1, 2]) ∧
    (Request.call (Except.error ClientFailure.timeoutError)).1 =
      Except.error (TransportError.wrapped ClientFailure.timeoutError) := by
  refine ⟨⟨(C6_invoker_wraps_single_attempt (Except.ok ⟨200, [("a", "b")], [1, 2]⟩)).1, ?_⟩, ?_⟩
  · exact (C6_invoker_wraps_single_attempt (Except.ok ⟨200, [("a", "b")], [1, 2]⟩)).2.2 _ rfl
  · exact (C6_invoker_wraps_single_attempt
      (Except.error ClientFailure.timeoutError)).2.1 ClientFailure.timeoutError rfl

/-! Concurrency model for claim C9: two logical `request()` calls in flight
on one `AuthorizedSession`, under the cooperative (asyncio) scheduling model.
Only the interleaving structure matters here, so durations and time-guards
are abstracted away; what remains of each call is its position in the
authorize/send/refresh cycle and the session's `self._refresh_lock`
(line 167, an `asyncio.Lock`). -/

/-- Control-flow position of one logical call at its current recursion
depth `attempt`:
* `beforeReq`: about to run `credentials.before_request` (line 244);
* `sending`: the transport send is in flight (`await` at line 247);
* `waitingLock`: blocked at `async with self._refresh_lock` (line 279);
* `refreshing`: holds the lock while `credentials.refresh` runs in the
  executor (lines 280-282);
* `finished`: the call returned its response (line 299). -/
inductive Phase where
  | beforeReq (attempt : Nat)
  | sending (attempt : Nat)
  | waitingLock (attempt : Nat)
  | refreshing (attempt : Nat)
  | finished
deriving DecidableEq, Repr

/-- Shared state of one `AuthorizedSession` with two concurrently in-flight
logical calls: the phase of each task, and the holder of
`self._refresh_lock` (`none` = unlocked). -/
structure SessState where
  ph : Fin 2 → Phase
  lock : Option (Fin 2)

/-- Small-step interleaving semantics of the two calls.  `refreshable t a`
says whether the response task `t` receives at attempt `a` has a status in
`refresh_status_codes`, and `maxA` is `max_refresh_attempts` (line 260
condition).  A scheduler step picks one task and advances it:
* `startSend`: run `before_request` (synchronous) and start the send;
* `recvRefreshable`: the send completes with a refreshable status while
  attempts remain -- proceed towards the refresh lock (lines 258-279);
* `recvFinal`: the send completes with a non-refreshable status or attempts
  are exhausted -- the call returns (lines 297-299);
* `acquireLock`: enter `async with self._refresh_lock` only when the lock is
  free, taking it (line 279);
* `finishRefresh`: `credentials.refresh` completed -- release the lock and
  recurse at `attempt + 1` (lines 282-295).
Sends of distinct tasks need no lock and may overlap; `refreshing` spans all
scheduler steps between acquisition and completion. -/
inductive SessStep (refreshable : Fin 2 → Nat → Bool) (maxA : Nat) :
    SessState → SessState → Prop where
  | startSend (t : Fin 2) (a : Nat) (st : SessState) (h : st.ph t = .beforeReq a) :
      SessStep refreshable maxA st ⟨Function.update st.ph t (.sending a), st.lock⟩
  | recvRefreshable (t : Fin 2) (a : Nat) (st : SessState) (h : st.ph t = .sending a)
      (hs : refreshable t a = true) (hm : a < maxA) :
      SessStep refreshable maxA st ⟨Function.update st.ph t (.waitingLock a), st.lock⟩
  | recvFinal (t : Fin 2) (a : Nat) (st : SessState) (h : st.ph t = .sending a)
      (hs : refreshable t a = false ∨ maxA ≤ a) :
      SessStep refreshable maxA st ⟨Function.update st.ph t .finished, st.lock⟩
  | acquireLock (t : Fin 2) (a : Nat) (st : SessState) (h : st.ph t = .waitingLock a)
      (hl : st.lock = none) :
      SessStep refreshable maxA st ⟨Function.update st.ph t (.refreshing a), some t⟩
  | finishRefresh (t : Fin 2) (a : Nat) (st : SessState) (h : st.ph t = .refreshing a) :
      SessStep refreshable maxA st ⟨Function.update st.ph t (.beforeReq (a + 1)), none⟩

/-- Initial state: both logical calls just invoked, lock free. -/
def initState : SessState := ⟨fun _ => .beforeReq 0, none⟩

/-- The lock discipline: a task inside its refresh critical section holds
`self._refresh_lock`. -/
def LockInv (st : SessState) : Prop :=
  ∀ (t : Fin 2) (a : Nat), st.ph t = .refreshing a → st.lock = some t

theorem lockInv_init : LockInv initState := by
  intro t a h
  simp [initState] at h

theorem lockInv_step {r : Fin 2 → Nat → Bool} {m : Nat} {st st' : SessState}
    (hstep : SessStep r m st st') (hinv : LockInv st) : LockInv st' := by
  cases hstep with
  | startSend t a st h =>
    intro u b hu
    dsimp only at hu ⊢
    by_cases htu : u = t
    · subst htu
      rw [Function.update_same] at hu
      cases hu
    · rw [Function.update_noteq htu] at hu
      exact hinv u b hu
  | recvRefreshable t a st h hs hm =>
    intro u b hu
    dsimp only at hu ⊢
    by_cases htu : u = t
    · subst htu
      rw [Function.update_same] at hu
      cases hu
    · rw [Function.update_noteq htu] at hu
      exact hinv u b hu
  | recvFinal t a st h hs =>
    intro u b hu
    dsimp only at hu ⊢
    by_cases htu : u = t
    · subst htu
      rw [Function.update_same] at hu
      cases hu
    · rw [Function.update_noteq htu] at hu
      exact hinv u b hu
  | acquireLock t a st h hl =>
    intro u b hu
    dsimp only at hu ⊢
    by_cases htu : u = t
    · subst htu
      rfl
    · rw [Function.update_noteq htu] at hu
      have hlock := hinv u b hu
      rw [hl] at hlock
      cases hlock
  | finishRefresh t a st h =>
    intro u b hu
    dsimp only at hu ⊢
    by_cases htu : u = t
    · subst htu
      rw [Function.update_same] at hu
      cases hu
    · rw [Function.update_noteq htu] at hu
      have hu' := hinv u b hu
      have ht' := hinv t a h
      rw [hu'] at ht'
      cases Option.some.inj ht'
      exact absurd rfl htu

theorem lockInv_reachable {r : Fin 2 → Nat → Bool} {m : Nat} {st : SessState}
    (h : Relation.ReflTransGen (SessStep r m) initState st) : LockInv st := by
  induction h with
  | refl => exact lockInv_init
  | tail hsteps hstep ih => exact lockInv_step hstep ih

/-- C9: in every state reachable by interleaving two logical calls on one
session, at most one call is inside its refresh critical section (the
`asyncio.Lock` at line 167 serializes `credentials.refresh`, lines 279-282);
and the calls' transport sends are NOT serialized: a state in which both
calls' sends are simultaneously in flight is reachable under any
environment. -/
theorem C9_refresh_mutual_exclusion :
    (∀ (refreshable : Fin 2 → Nat → Bool) (maxA : Nat) (st : SessState),
      Relation.ReflTransGen (SessStep refreshable maxA) initState st →
      ∀ a b : Nat, ¬(st.ph 0 = .refreshing a ∧ st.ph 1 = .refreshing b)) ∧
    (∀ (refreshable : Fin 2 → Nat → Bool) (maxA : Nat), ∃ st : SessState,
      Relation.ReflTransGen (SessStep refreshable maxA) initState st ∧
      st.ph 0 = .sending 0 ∧ st.ph 1 = .sending 0) := by
  constructor
  · rintro r m st hreach a b ⟨h0, h1⟩
    have hinv := lockInv_reachable hreach
    have e0 := hinv 0 a h0
    have e1 := hinv 1 b h1
    rw [e0] at e1
    have : (0 : Fin 2) = 1 := Option.some.inj e1
    exact absurd this (by decide)
  · intro r m
    refine ⟨⟨Function.update (Function.update initState.ph 0 (Phase.sending 0)) 1
        (Phase.sending 0), none⟩, ?_, ?_, ?_⟩
    · have s1 : SessStep r m initState
          ⟨Function.update initState.ph 0 (Phase.sending 0), initState.lock⟩ :=
        SessStep.startSend 0 0 initState rfl
      have s2 : SessStep r m ⟨Function.update initState.ph 0 (Phase.sending 0), initState.lock⟩
          ⟨Function.update (Function.update initState.ph 0 (Phase.sending 0)) 1
            (Phase.sending 0), initState.lock⟩ :=
        SessStep.startSend 1 0 _ (by
          dsimp only
          rw [Function.update_noteq (by decide : (1 : Fin 2) ≠ 0)]
          rfl)
      exact Relation.ReflTransGen.head s1 (Relation.ReflTransGen.head s2 Relation.ReflTransGen.refl)
    · dsimp only
      rw [Function.update_noteq (by decide : (0 : Fin 2) ≠ 1), Function.update_same]
    · dsimp only
      rw [Function.update_same]

/-- C9 witness: the mutual-exclusion half of the theorem applied at the
(reachable) initial state. -/
theorem C9_refresh_mutual_exclusion_witness :
    ¬(initState.ph 0 = Phase.refreshing 0 ∧ initState.ph 1 = Phase.refreshing 0) :=
  C9_refresh_mutual_exclusion.1 (fun _ _ => true) 2 initState Relation.ReflTransGen.refl 0 0

end AiohttpReq
